import Mathlib

set_option maxHeartbeats 4000000
set_option maxRecDepth 100000

/-!
Verification of the llinux-client remote-execution agent.

Part 1 embeds `command_executor.py` (the Command Runner): Python strings are
modelled as `List Char`; `str.splitlines`, `"\n".join`, slicing and
`str(int)` are modelled faithfully, and `truncate_output` /
`execute_command` are translated clause by clause.

Part 2 embeds the connection state machine of `client.py`
(`LinuxCommandClient`): the mutable fields of the object become a
`ClientState` record, the websocket handle becomes `Option Bool`
(`some b` = a handle exists and `b` says whether it is open), and each
method becomes a state-transition function that additionally reports the
outbound side effects it performs as a list of `Event`s.
-/

/-- A Python `str`, modelled as its list of characters. -/
abbrev PyStr := List Char

/-- The characters Python's `str.splitlines` treats as line boundaries
(`\n`, `\r`, `\v`, `\f`, FS, GS, RS, NEL, LINE SEPARATOR, PARAGRAPH
SEPARATOR); `\r\n` is additionally treated as a single boundary. -/
def isLineBreak (c : Char) : Bool :=
  c == '\n' || c == '\r' || c.toNat == 0x0b || c.toNat == 0x0c ||
  c.toNat == 0x1c || c.toNat == 0x1d || c.toNat == 0x1e ||
  c.toNat == 0x85 || c.toNat == 0x2028 || c.toNat == 0x2029

/-- Prepend a character to the first line of a split result (the first
line is created if there is none). -/
def consHead (c : Char) : List PyStr → List PyStr
  | [] => [[c]]
  | l :: ls => (c :: l) :: ls

/-- Python `str.splitlines`: split at line boundaries (with `\r\n`
counting as one boundary); a trailing boundary does not produce a final
empty line. -/
def pySplitlines : PyStr → List PyStr
  | [] => []
  | '\r' :: '\n' :: rest => [] :: pySplitlines rest
  | c :: rest =>
    if isLineBreak c then [] :: pySplitlines rest
    else consHead c (pySplitlines rest)

/-- Number of line boundaries in a string, with `\r\n` counting once
(the companion measure to `pySplitlines`). -/
def nBreaks : PyStr → Nat
  | [] => 0
  | '\r' :: '\n' :: rest => 1 + nBreaks rest
  | c :: rest => (if isLineBreak c then 1 else 0) + nBreaks rest

/-- Python `"\n".join`. -/
def joinNL : List PyStr → PyStr
  | [] => []
  | [x] => x
  | x :: y :: ys => x ++ '\n' :: joinNL (y :: ys)

/-- Python `str(n)` for a non-negative integer: decimal digits. -/
def natChars (n : Nat) : PyStr := Nat.toDigits 10 n

/-- The common head of both truncation markers (note the leading newline
embedded in the Python f-string literals). -/
def markerHead : PyStr := ("\n... output truncated (").data

/-- The text witnessing that truncation occurred. -/
def truncPattern : PyStr := ("... output truncated (").data

/-- The line appended by the line cap:
`f"\n... output truncated ({lines_truncated} more lines) ..."`. -/
def lineMarker (k : Nat) : PyStr :=
  markerHead ++ natChars k ++ (" more lines) ...").data

/-- The text appended by the character cap:
`f"\n... output truncated ({chars_truncated} more characters) ..."`. -/
def charMarker (k : Nat) : PyStr :=
  markerHead ++ natChars k ++ (" more characters) ...").data

/-- First stage of `truncate_output`: the line cap
(`if len(lines) > max_lines: ...` in `command_executor.py`, where
`lines = output.splitlines()`). -/
def lineCap (max_lines : Nat) (output : PyStr) : PyStr :=
  if max_lines < (pySplitlines output).length then
    joinNL ((pySplitlines output).take max_lines
      ++ [lineMarker ((pySplitlines output).length - max_lines)])
  else output

/-- Second stage of `truncate_output`: the character cap
(`if len(output) > max_length: ...` in `command_executor.py`). -/
def charCap (max_length : Nat) (output : PyStr) : PyStr :=
  if max_length < output.length then
    output.take max_length ++ charMarker (output.length - max_length)
  else output

/-- `truncate_output(output, max_length, max_lines)` from
`command_executor.py`: empty input is returned as is, otherwise the line
cap is applied first and the character cap is applied to its result.
The Python defaults are `max_length=8192`, `max_lines=100`. -/
def truncate_output (output : PyStr) (max_length : Nat) (max_lines : Nat) : PyStr :=
  if output = [] then output
  else charCap max_length (lineCap max_lines output)

/-- `len(s.splitlines())`. -/
def pyLineCount (s : PyStr) : Nat := (pySplitlines s).length

/-- Outcome of the `subprocess` interaction inside `execute_command`:
the process ran to completion with the given captured streams and return
code, or `communicate` raised `TimeoutExpired`, or spawning raised some
other exception with message `e`. -/
inductive SpawnResult where
  | ok (stdout stderr : PyStr) (returncode : Int)
  | timedOut
  | raises (e : PyStr)

/-- `execute_command` from `command_executor.py`, as a function of the
subprocess outcome: on completion stdout and stderr are combined (with
the `"\n--- stderr ---\n"` separator when stderr is non-empty),
truncated with the default limits, and paired with `returncode == 0`;
`TimeoutExpired` is caught, the process is killed, and the fixed timeout
message is returned with `False`; any other exception is caught and
yields `f"Error executing command: {e}"` with `False`. -/
def execute_command (r : SpawnResult) : PyStr × Bool :=
  match r with
  | .ok stdout stderr returncode =>
    let output :=
      stdout ++ (if stderr ≠ [] then ("\n--- stderr ---\n").data ++ stderr else [])
    (truncate_output output 8192 100, returncode == 0)
  | .timedOut =>
    (("Command execution timed out and process was killed!").data, false)
  | .raises e =>
    (("Error executing command: ").data ++ e, false)

/-! ### Lemmas about `pySplitlines`, `nBreaks` and the truncation caps -/

lemma length_consHead (c : Char) (L : List PyStr) :
    (consHead c L).length = max 1 L.length := by
  cases L <;> simp [consHead]

lemma isLineBreak_cr : isLineBreak '\r' = true := by decide

lemma isLineBreak_lf : isLineBreak '\n' = true := by decide

lemma nBreaks_single_cr : nBreaks ['\r'] = 1 := by decide

lemma nBreaks_le_pyLineCount (s : PyStr) : nBreaks s ≤ pyLineCount s := by
  induction s using nBreaks.induct with
  | case1 => simp [nBreaks, pySplitlines, pyLineCount]
  | case2 rest ih =>
    simp only [pyLineCount] at *
    rw [nBreaks.eq_2, pySplitlines.eq_2]
    simp only [List.length_cons]
    omega
  | case3 c rest h ih =>
    simp only [pyLineCount] at *
    rw [nBreaks.eq_3 c rest h, pySplitlines.eq_3 c rest h]
    cases hb : isLineBreak c <;> simp [length_consHead] <;> omega

lemma pyLineCount_le_nBreaks_add_one (s : PyStr) : pyLineCount s ≤ nBreaks s + 1 := by
  induction s using nBreaks.induct with
  | case1 => simp [nBreaks, pySplitlines, pyLineCount]
  | case2 rest ih =>
    simp only [pyLineCount] at *
    rw [nBreaks.eq_2, pySplitlines.eq_2]
    simp only [List.length_cons]
    omega
  | case3 c rest h ih =>
    simp only [pyLineCount] at *
    rw [nBreaks.eq_3 c rest h, pySplitlines.eq_3 c rest h]
    cases hb : isLineBreak c <;> simp [length_consHead] <;> omega

lemma nBreaks_take (n : Nat) (s : PyStr) : nBreaks (List.take n s) ≤ nBreaks s := by
  induction s using nBreaks.induct generalizing n with
  | case1 => simp [nBreaks]
  | case2 rest ih =>
    match n with
    | 0 => simp [nBreaks]
    | 1 =>
      rw [List.take_succ_cons, List.take_zero, nBreaks.eq_2, nBreaks_single_cr]
      omega
    | (m+2) =>
      rw [List.take_succ_cons, List.take_succ_cons, nBreaks.eq_2, nBreaks.eq_2]
      have := ih m
      omega
  | case3 c rest h ih =>
    match n with
    | 0 => simp [nBreaks]
    | (m+1) =>
      rw [List.take_succ_cons]
      have hh : ∀ (r2 : List Char), c = '\r' → List.take m rest = '\n' :: r2 → False := by
        intro r2 hc hr
        match m, rest with
        | 0, _ => simp at hr
        | (m'+1), [] => simp at hr
        | (m'+1), d :: r' =>
          rw [List.take_succ_cons] at hr
          have hd : d = '\n' := by
            have := congrArg (·.head?) hr
            simpa using this
          exact h r' hc (by rw [hd])
      rw [nBreaks.eq_3 c rest h, nBreaks.eq_3 c (List.take m rest) hh]
      have := ih m
      omega

lemma nBreaks_append (a b : PyStr) : nBreaks (a ++ b) ≤ nBreaks a + nBreaks b := by
  induction a using nBreaks.induct with
  | case1 => simp [nBreaks]
  | case2 rest ih =>
    rw [List.cons_append, List.cons_append, nBreaks.eq_2, nBreaks.eq_2]
    omega
  | case3 c rest h ih =>
    rw [List.cons_append]
    by_cases hsp : c = '\r' ∧ ∃ b2, rest ++ b = '\n' :: b2
    · obtain ⟨hc, b2, hb2⟩ := hsp
      have hrest : rest = [] := by
        match rest with
        | [] => rfl
        | d :: r' =>
          rw [List.cons_append] at hb2
          have hd : d = '\n' := by
            have := congrArg (·.head?) hb2
            simpa using this
          exact absurd (h r' hc (by rw [hd])) (by simp)
      subst hrest
      simp only [List.nil_append] at hb2 ⊢
      subst hb2
      rw [hc, nBreaks.eq_2, nBreaks_single_cr]
      have : nBreaks ('\n' :: b2) = 1 + nBreaks b2 := by
        rw [nBreaks.eq_3]
        · simp [isLineBreak_lf]
        · intro r2 hc' _
          exact absurd hc' (by decide)
      omega
    · push_neg at hsp
      have hh : ∀ (r2 : List Char), c = '\r' → rest ++ b = '\n' :: r2 → False := by
        intro r2 hc hr
        exact absurd hr (hsp hc r2)
      rw [nBreaks.eq_3 c (rest ++ b) hh, nBreaks.eq_3 c rest h]
      omega

lemma mem_pySplitlines_nonbreak (s : PyStr) :
    ∀ l ∈ pySplitlines s, ∀ c ∈ l, isLineBreak c = false := by
  induction s using pySplitlines.induct with
  | case1 => simp [pySplitlines]
  | case2 rest ih =>
    rw [pySplitlines.eq_2]
    intro l hl c hc
    rcases List.mem_cons.mp hl with h1 | h1
    · subst h1; simp at hc
    · exact ih l h1 c hc
  | case3 c rest h hb ih =>
    rw [pySplitlines.eq_3 c rest h, if_pos hb]
    intro l hl d hd
    rcases List.mem_cons.mp hl with h1 | h1
    · subst h1; simp at hd
    · exact ih l h1 d hd
  | case4 c rest h hb ih =>
    rw [pySplitlines.eq_3 c rest h, if_neg hb]
    intro l hl d hd
    cases hL : pySplitlines rest with
    | nil =>
      rw [hL] at hl
      simp only [consHead, List.mem_singleton] at hl
      subst hl
      simp only [List.mem_singleton] at hd
      subst hd
      simpa using hb
    | cons l0 ls =>
      rw [hL] at hl
      simp only [consHead] at hl
      rcases List.mem_cons.mp hl with h1 | h1
      · subst h1
        rcases List.mem_cons.mp hd with h2 | h2
        · subst h2; simpa using hb
        · exact ih l0 (by rw [hL]; exact List.mem_cons_self _ _) d h2
      · exact ih l (by rw [hL]; exact List.mem_cons_of_mem _ h1) d hd

lemma nBreaks_eq_zero_of_nonbreak (s : PyStr)
    (h : ∀ c ∈ s, isLineBreak c = false) : nBreaks s = 0 := by
  induction s using nBreaks.induct with
  | case1 => simp [nBreaks]
  | case2 rest ih =>
    have := h '\r' (by simp)
    simp [isLineBreak_cr] at this
  | case3 c rest hne ih =>
    rw [nBreaks.eq_3 c rest hne]
    rw [h c (by simp), ih (fun d hd => h d (List.mem_cons_of_mem _ hd))]
    decide

lemma isLineBreak_digitChar (m : Nat) : isLineBreak (Nat.digitChar m) = false := by
  match m with
  | 0 | 1 | 2 | 3 | 4 | 5 | 6 | 7 | 8 | 9 | 10 | 11 | 12 | 13 | 14 | 15 => decide
  | (n+16) =>
    have h : Nat.digitChar (n+16) = Char.ofNat 42 := by
      unfold Nat.digitChar
      repeat rw [if_neg (by omega)]
    rw [h]
    decide

lemma mem_toDigitsCore (b fuel n : Nat) (ds : List Char) :
    ∀ c ∈ Nat.toDigitsCore b fuel n ds, c ∈ ds ∨ ∃ m, c = Nat.digitChar m := by
  induction fuel generalizing n ds with
  | zero => intro c hc; exact Or.inl hc
  | succ fuel ih =>
    intro c hc
    rw [Nat.toDigitsCore] at hc
    by_cases hz : n / b = 0
    · rw [if_pos hz] at hc
      rcases List.mem_cons.mp hc with h1 | h1
      · exact Or.inr ⟨n % b, h1⟩
      · exact Or.inl h1
    · rw [if_neg hz] at hc
      rcases ih (n / b) (Nat.digitChar (n % b) :: ds) c hc with h1 | h1
      · rcases List.mem_cons.mp h1 with h2 | h2
        · exact Or.inr ⟨n % b, h2⟩
        · exact Or.inl h2
      · exact Or.inr h1

lemma nBreaks_natChars (k : Nat) : nBreaks (natChars k) = 0 := by
  apply nBreaks_eq_zero_of_nonbreak
  intro c hc
  rcases mem_toDigitsCore 10 (k+1) k [] c hc with h1 | ⟨m, hm⟩
  · simp at h1
  · rw [hm]; exact isLineBreak_digitChar m

lemma nBreaks_lineMarker (k : Nat) : nBreaks (lineMarker k) ≤ 1 := by
  unfold lineMarker
  calc nBreaks (markerHead ++ natChars k ++ (" more lines) ...").data)
      ≤ nBreaks (markerHead ++ natChars k) + nBreaks ((" more lines) ...").data) :=
        nBreaks_append _ _
    _ ≤ nBreaks markerHead + nBreaks (natChars k) + nBreaks ((" more lines) ...").data) := by
        have := nBreaks_append markerHead (natChars k)
        omega
    _ ≤ 1 := by
        rw [nBreaks_natChars]
        have h1 : nBreaks markerHead = 1 := by decide
        have h2 : nBreaks ((" more lines) ...").data) = 0 := by decide
        omega

lemma nBreaks_charMarker (k : Nat) : nBreaks (charMarker k) ≤ 1 := by
  unfold charMarker
  calc nBreaks (markerHead ++ natChars k ++ (" more characters) ...").data)
      ≤ nBreaks (markerHead ++ natChars k) + nBreaks ((" more characters) ...").data) :=
        nBreaks_append _ _
    _ ≤ nBreaks markerHead + nBreaks (natChars k) + nBreaks ((" more characters) ...").data) := by
        have := nBreaks_append markerHead (natChars k)
        omega
    _ ≤ 1 := by
        rw [nBreaks_natChars]
        have h1 : nBreaks markerHead = 1 := by decide
        have h2 : nBreaks ((" more characters) ...").data) = 0 := by decide
        omega

lemma nBreaks_cons_lf (s : PyStr) : nBreaks ('\n' :: s) = 1 + nBreaks s := by
  rw [nBreaks.eq_3]
  · simp [isLineBreak_lf]
  · intro r2 hc _
    exact absurd hc (by decide)

lemma nBreaks_joinNL (L : List PyStr) :
    nBreaks (joinNL L) ≤ (L.length - 1) + (L.map nBreaks).sum := by
  induction L with
  | nil => simp [joinNL, nBreaks]
  | cons x xs ih =>
    cases xs with
    | nil => simp [joinNL]
    | cons y ys =>
      rw [joinNL]
      calc nBreaks (x ++ '\n' :: joinNL (y :: ys))
          ≤ nBreaks x + nBreaks ('\n' :: joinNL (y :: ys)) := nBreaks_append _ _
        _ = nBreaks x + (1 + nBreaks (joinNL (y :: ys))) := by rw [nBreaks_cons_lf]
        _ ≤ nBreaks x + (1 + (((y :: ys).length - 1) + ((y :: ys).map nBreaks).sum)) := by
            omega
        _ ≤ ((x :: y :: ys).length - 1) + ((x :: y :: ys).map nBreaks).sum := by
            simp only [List.length_cons, List.map_cons, List.sum_cons]
            omega

lemma joinNL_last_suffix (L : List PyStr) (m : PyStr) : m <:+ joinNL (L ++ [m]) := by
  induction L with
  | nil => simp [joinNL]
  | cons x xs ih =>
    rw [List.cons_append]
    cases hxs : xs ++ [m] with
    | nil => simp at hxs
    | cons y ys =>
      rw [hxs] at ih
      obtain ⟨p, hp⟩ := ih
      refine ⟨x ++ '\n' :: p, ?_⟩
      have hj : joinNL (x :: y :: ys) = x ++ '\n' :: joinNL (y :: ys) := rfl
      rw [hj, ← hp]
      simp

lemma nBreaks_lineCap (m : Nat) (s : PyStr) : nBreaks (lineCap m s) ≤ m + 1 := by
  unfold lineCap
  split_ifs with hm
  · calc nBreaks (joinNL ((pySplitlines s).take m ++ [lineMarker ((pySplitlines s).length - m)]))
        ≤ (((pySplitlines s).take m ++ [lineMarker ((pySplitlines s).length - m)]).length - 1)
          + ((((pySplitlines s).take m ++ [lineMarker ((pySplitlines s).length - m)])).map nBreaks).sum :=
          nBreaks_joinNL _
      _ ≤ m + 1 := by
          rw [List.map_append, List.sum_append]
          have hlen : ((pySplitlines s).take m).length = m := by
            rw [List.length_take]
            omega
          have hsum : (((pySplitlines s).take m).map nBreaks).sum = 0 := by
            apply List.sum_eq_zero
            intro x hx
            rw [List.mem_map] at hx
            obtain ⟨l, hl, hxl⟩ := hx
            have hmem : l ∈ pySplitlines s := List.take_subset _ _ hl
            rw [← hxl]
            exact nBreaks_eq_zero_of_nonbreak l (mem_pySplitlines_nonbreak s l hmem)
          have hmk := nBreaks_lineMarker ((pySplitlines s).length - m)
          simp only [List.length_append, List.map_cons, List.map_nil, List.sum_cons,
            List.sum_nil, List.length_cons, List.length_nil, hlen, hsum]
          omega
  · have h1 : nBreaks s ≤ pyLineCount s := nBreaks_le_pyLineCount s
    simp only [pyLineCount] at h1
    omega

lemma length_charCap (m : Nat) (s : PyStr) :
    (charCap m s).length ≤ m + (charMarker (s.length - m)).length := by
  unfold charCap
  split_ifs with hm
  · rw [List.length_append, List.length_take]
    omega
  · omega

lemma pyLineCount_charCap (m : Nat) (s : PyStr) :
    pyLineCount (charCap m s) ≤ nBreaks s + 2 := by
  unfold charCap
  split_ifs with hm
  · calc pyLineCount (s.take m ++ charMarker (s.length - m))
        ≤ nBreaks (s.take m ++ charMarker (s.length - m)) + 1 :=
          pyLineCount_le_nBreaks_add_one _
      _ ≤ (nBreaks (s.take m) + nBreaks (charMarker (s.length - m))) + 1 := by
          have := nBreaks_append (s.take m) (charMarker (s.length - m))
          omega
      _ ≤ nBreaks s + 2 := by
          have h1 := nBreaks_take m s
          have h2 := nBreaks_charMarker (s.length - m)
          omega
  · have := pyLineCount_le_nBreaks_add_one s
    omega

lemma markerHead_eq : markerHead = '\n' :: truncPattern := by decide

lemma truncPattern_infix_lineMarker (k : Nat) : truncPattern <:+: lineMarker k := by
  refine ⟨['\n'], natChars k ++ (" more lines) ...").data, ?_⟩
  rw [lineMarker, markerHead_eq]
  simp

lemma truncPattern_infix_charMarker (k : Nat) : truncPattern <:+: charMarker k := by
  refine ⟨['\n'], natChars k ++ (" more characters) ...").data, ?_⟩
  rw [charMarker, markerHead_eq]
  simp

lemma lineCap_eq_self (s : PyStr) (h : pyLineCount s ≤ 100) : lineCap 100 s = s := by
  unfold lineCap
  rw [if_neg]
  simp only [pyLineCount] at h
  omega

lemma truncate_output_eq_self (s : PyStr) (h1 : pyLineCount s ≤ 100)
    (h2 : s.length ≤ 8192) : truncate_output s 8192 100 = s := by
  unfold truncate_output
  split_ifs with h0
  · rfl
  · rw [lineCap_eq_self s h1]
    unfold charCap
    rw [if_neg (by omega)]

/-! ### Claims C1 and C2 -/

/-- An input with 101 one-character lines: a concrete refutation input
for the claimed 100-line output bound. -/
def c1input : PyStr := joinNL (List.replicate 101 ['a'])

/-- An input with 110 one-character lines: a concrete refutation input
for idempotence of truncation. -/
def c2input : PyStr := joinNL (List.replicate 110 ['a'])

/-- C1 (counterexample): the claim that `truncate_output` with the default
limits always returns at most 100 lines is false: on an input of 101
one-character lines the result has 102 lines (the appended marker line
contains an embedded leading newline, so joining adds two lines on top of
the 100 kept ones). -/
theorem truncate_line_bound_violated :
    100 < pyLineCount (truncate_output c1input 8192 100) := by decide

/-- C1 (amended): for every input, `truncate_output` with the default
limits returns at most 103 lines, and at most `8192 +` the length of the
appended character marker (44 characters plus the decimal digits of the
dropped-character count) characters; and whenever either input bound was
exceeded the result contains the truncation-marker text
`"... output truncated ("` naming the dropped count. -/
theorem truncate_output_default_bounds (s : PyStr) :
    pyLineCount (truncate_output s 8192 100) ≤ 103 ∧
    (truncate_output s 8192 100).length ≤
      8192 + (charMarker ((lineCap 100 s).length - 8192)).length ∧
    (truncPattern <:+: truncate_output s 8192 100 ∨
      (pyLineCount s ≤ 100 ∧ s.length ≤ 8192)) := by
  by_cases hnil : s = []
  · subst hnil
    refine ⟨?_, ?_, Or.inr ⟨?_, ?_⟩⟩ <;> simp [truncate_output, pyLineCount, pySplitlines]
  · have hto : truncate_output s 8192 100 = charCap 8192 (lineCap 100 s) := by
      unfold truncate_output
      rw [if_neg hnil]
    refine ⟨?_, ?_, ?_⟩
    · rw [hto]
      have h1 := pyLineCount_charCap 8192 (lineCap 100 s)
      have h2 := nBreaks_lineCap 100 s
      omega
    · rw [hto]
      exact length_charCap 8192 (lineCap 100 s)
    · by_cases hC : 8192 < (lineCap 100 s).length
      · left
        rw [hto]
        unfold charCap
        rw [if_pos hC]
        have hsuf : charMarker ((lineCap 100 s).length - 8192) <:+
            ((lineCap 100 s).take 8192 ++ charMarker ((lineCap 100 s).length - 8192)) :=
          ⟨_, rfl⟩
        exact (truncPattern_infix_charMarker _).trans hsuf.isInfix
      · by_cases hL : 100 < pyLineCount s
        · left
          rw [hto]
          unfold charCap
          rw [if_neg hC]
          unfold lineCap
          simp only [pyLineCount] at hL
          rw [if_pos hL]
          have hsuf := joinNL_last_suffix ((pySplitlines s).take 100)
            (lineMarker ((pySplitlines s).length - 100))
          exact (truncPattern_infix_lineMarker _).trans hsuf.isInfix
        · right
          push_neg at hL
          refine ⟨hL, ?_⟩
          have hcap : lineCap 100 s = s := lineCap_eq_self s hL
          rw [hcap] at hC
          omega

/-- C2 (counterexample): truncation is not idempotent: on an input of 110
one-character lines, the first pass keeps 100 lines and appends a marker
(making 102 lines), so a second pass truncates again and produces a
different string. -/
theorem truncate_not_idempotent :
    truncate_output (truncate_output c2input 8192 100) 8192 100 ≠
      truncate_output c2input 8192 100 := by decide

/-- C2 (amended): truncation is idempotent on inputs within the limits
(at most 100 lines and at most 8192 characters), where it is the
identity; on inputs that are actually truncated the appended marker
pushes the result back over a limit, so re-truncation can change it. -/
theorem truncate_idempotent_within_limits (s : PyStr) (h1 : pyLineCount s ≤ 100)
    (h2 : s.length ≤ 8192) :
    truncate_output (truncate_output s 8192 100) 8192 100 = truncate_output s 8192 100 := by
  rw [truncate_output_eq_self s h1 h2]
  exact truncate_output_eq_self s h1 h2

theorem truncate_idempotent_within_limits_witness :
    pyLineCount ("a\nb").data ≤ 100 ∧ ("a\nb").data.length ≤ 8192 ∧
    truncate_output (truncate_output ("a\nb").data 8192 100) 8192 100 =
      truncate_output ("a\nb").data 8192 100 :=
  ⟨by decide, by decide, truncate_idempotent_within_limits _ (by decide) (by decide)⟩

/-! ### Claims C3 and C4 -/

/-- C3 (counterexample): the timeout message returned by
`execute_command` is not the claimed
`"Command execution timed out and process was killed"`: the code's
message ends with an exclamation mark. -/
theorem timeout_message_mismatch :
    (execute_command SpawnResult.timedOut).1 ≠
      ("Command execution timed out and process was killed").data := by decide

/-- C3 (amended): when the subprocess does not complete within the
timeout, `execute_command` kills the process and returns `success=false`
with exactly the fixed message
`"Command execution timed out and process was killed!"`. -/
theorem timeout_message_exact :
    execute_command SpawnResult.timedOut =
      (("Command execution timed out and process was killed!").data, false) := by decide

/-- C4: `execute_command` catches every spawn-level exception and never
propagates it: the exceptional outcome is mapped to a returned pair whose
output is the error text (prefixed `"Error executing command: "`) and
whose success flag is `false`; totality of the embedding reflects that
every subprocess outcome produces a returned `(output, success)` pair. -/
theorem execute_command_spawn_failure_total (e : PyStr) :
    execute_command (SpawnResult.raises e) =
      (("Error executing command: ").data ++ e, false) := rfl

/-! ### Part 2: the connection state machine of `client.py` -/

/-- `LinuxCommandClient.REGISTRATION_TIMEOUT` (seconds). -/
def REGISTRATION_TIMEOUT : Nat := 5

/-- The mutable state of a `LinuxCommandClient` object.  The websocket
handle `_ws` is `none` before any connection attempt and `some b`
afterwards, where `b` records whether the handle is still open.  The
connection-code callback is modelled by the (fixed) code it would
return, `none` when no callback was supplied at construction. -/
structure ClientState where
  server_url : PyStr
  websocket_url : PyStr
  device_id : PyStr
  connection_code : Option PyStr
  connection_code_callback : Option PyStr
  ws : Option Bool
  connected : Bool
  connecting : Bool
  shutdown_requested : Bool
  registration_failed : Bool
  registration_pending : Bool
  registration_start_time : Option Nat
deriving DecidableEq

/-- The outbound side effects a client method can perform. -/
inductive Event where
  | connectAttempt : Event
  | wsClosed : Event
  | sentRegister (deviceId : PyStr) (connectionCode : Option PyStr) : Event
  | sentCommandResult (deviceId commandId : PyStr) (index : Nat)
      (command output : PyStr) (success : Bool) : Event
  | sentSystemInformation (deviceId : PyStr) : Event
deriving DecidableEq

/-- `LinuxCommandClient.connect`: a no-op when a connection attempt is
already in progress; otherwise a fresh (open) websocket handle is
created and its thread started.  The `finally` clause restores
`_connecting = False`, so the net flag change of a completed call is
nil. -/
def connect (s : ClientState) : ClientState × List Event :=
  if s.connecting then (s, [])
  else ({ s with ws := some true }, [Event.connectAttempt])

/-- `LinuxCommandClient._reconnect`: `connect` guarded by not connecting,
not connected and no shutdown requested. -/
def _reconnect (s : ClientState) : ClientState × List Event :=
  if ¬s.connecting ∧ ¬s.connected ∧ ¬s.shutdown_requested then connect s
  else (s, [])

/-- `LinuxCommandClient._register_device`: rejected (logged only) when no
websocket handle exists; otherwise sends the `register` message (with the
connection code when present) and starts the registration timer. -/
def _register_device (now : Nat) (s : ClientState) : ClientState × List Event :=
  if s.ws.isNone then (s, [])
  else ({ s with registration_pending := true, registration_start_time := some now },
        [Event.sentRegister s.device_id s.connection_code])

/-- `LinuxCommandClient._send_command_results`: rejected (logged only)
when no handle exists or the client is not connected; otherwise sends one
`command_result` message. -/
def _send_command_results (s : ClientState) (commandId : PyStr) (index : Nat)
    (command output : PyStr) (success : Bool) : ClientState × List Event :=
  if s.ws.isNone ∨ ¬s.connected then (s, [])
  else (s, [Event.sentCommandResult s.device_id commandId index command output success])

/-- `LinuxCommandClient._send_system_information`: rejected (logged only)
when no handle exists or the client is not connected; otherwise sends one
`system_information` message. -/
def _send_system_information (s : ClientState) : ClientState × List Event :=
  if s.ws.isNone ∨ ¬s.connected then (s, [])
  else (s, [Event.sentSystemInformation s.device_id])

/-- Python truthiness of `data.get('success')`: an absent field is falsy,
a present Boolean field has its own truth value. -/
def pyTruthy : Option Bool → Bool
  | some b => b
  | none => false

/-- `LinuxCommandClient._handle_registration_response`: clears the
pending flag and timer start, then branches on the truthiness of the
`success` field. -/
def _handle_registration_response (success : Option Bool) (s : ClientState) : ClientState :=
  let s1 := { s with registration_pending := false, registration_start_time := none }
  if pyTruthy success then { s1 with connected := true, registration_failed := false }
  else { s1 with connected := false, registration_failed := true }

/-- `LinuxCommandClient._on_error`: logs and clears the connected and
connecting flags. -/
def _on_error (s : ClientState) : ClientState :=
  { s with connected := false, connecting := false }

/-- `LinuxCommandClient._on_close`: logs and clears the connected and
connecting flags. -/
def _on_close (s : ClientState) : ClientState :=
  { s with connected := false, connecting := false }

/-- `self._ws.close()`: marks an existing handle closed. -/
def closeWs : Option Bool → Option Bool
  | some _ => some false
  | none => none

/-- Second half of the reconnection branch of the `run` loop body:
`if not self._registration_failed: self._reconnect()` after the
connection-code-callback step produced state `sa`. -/
def loopBody2 (sa : ClientState) : ClientState × List Event :=
  if ¬sa.registration_failed then _reconnect sa else (sa, [])

/-- The heartbeat/reconnect portion of one `run`-loop iteration:
send system information when connected; otherwise, when not connecting,
obtain a new connection code via the callback if registration failed and
a callback exists (clearing the failed flag), then reconnect unless the
failed flag is still set. -/
def loopBody (s : ClientState) : ClientState × List Event :=
  if s.connected then _send_system_information s
  else if ¬s.connecting then
    loopBody2
      (if s.registration_failed ∧ s.connection_code_callback.isSome then
        { s with connection_code := s.connection_code_callback, registration_failed := false }
      else s)
  else (s, [])

/-- The registration-timeout check at the end of each `run`-loop
iteration: when registration is pending, a start time exists and more
than `REGISTRATION_TIMEOUT` seconds have elapsed, the failure flag is
set, the pending flag and connected flag are cleared and the websocket,
if any, is closed. -/
def timeoutCheck (now : Nat) (s : ClientState) : ClientState × List Event :=
  match s.registration_start_time with
  | some t =>
    if s.registration_pending ∧ REGISTRATION_TIMEOUT < now - t then
      ({ s with registration_failed := true, registration_pending := false,
                connected := false, ws := closeWs s.ws },
       if s.ws.isNone then [] else [Event.wsClosed])
    else (s, [])
  | none => (s, [])

/-- One full iteration of the `while not self._shutdown_requested` loop
in `LinuxCommandClient.run` (at wall-clock time `now`): the
heartbeat/reconnect branch followed by the registration-timeout check. -/
def tick (now : Nat) (s : ClientState) : ClientState × List Event :=
  let r1 := loopBody s
  let r2 := timeoutCheck now r1.1
  (r2.1, r1.2 ++ r2.2)

/-- Iterated `run`-loop: one `tick` per element of `nows` (the wall-clock
time observed at each iteration), accumulating the emitted events. -/
def ticks : List Nat → ClientState → ClientState × List Event
  | [], s => (s, [])
  | n :: ns, s =>
    let r1 := tick n s
    let r2 := ticks ns r1.1
    (r2.1, r1.2 ++ r2.2)

/-- Whether the client currently owns an open transport handle. -/
def wsOpen (s : ClientState) : Bool := s.ws.getD false

/-! ### Claims C5 to C10 -/

/-- C5: calling `connect()` while a connection attempt is already in
progress (`_connecting` set) is a no-op: the entire client state is
returned unchanged and no connection attempt is made. -/
theorem connect_while_connecting_noop (s : ClientState) (h : s.connecting = true) :
    connect s = (s, []) := by
  unfold connect
  rw [if_pos (by rw [h])]

/-- A concrete client state in the middle of a connection attempt. -/
def sampleConnecting : ClientState :=
  { server_url := ("http://localhost:3000").data
    websocket_url := ("ws://localhost:3000").data
    device_id := ("12345").data
    connection_code := some ("code").data
    connection_code_callback := none
    ws := some true
    connected := false
    connecting := true
    shutdown_requested := false
    registration_failed := false
    registration_pending := false
    registration_start_time := none }

theorem connect_while_connecting_noop_witness :
    sampleConnecting.connecting = true ∧ connect sampleConnecting = (sampleConnecting, []) :=
  ⟨rfl, connect_while_connecting_noop sampleConnecting rfl⟩

lemma sysinfo_fst (s : ClientState) : (_send_system_information s).1 = s := by
  unfold _send_system_information
  split_ifs <;> rfl

lemma reconnect_frame (s : ClientState) :
    ((_reconnect s).1).registration_pending = s.registration_pending ∧
    ((_reconnect s).1).registration_start_time = s.registration_start_time := by
  unfold _reconnect connect
  split_ifs <;> exact ⟨rfl, rfl⟩

lemma loopBody2_frame (sa : ClientState) :
    ((loopBody2 sa).1).registration_pending = sa.registration_pending ∧
    ((loopBody2 sa).1).registration_start_time = sa.registration_start_time := by
  unfold loopBody2
  split_ifs with h <;> first | exact reconnect_frame sa | exact ⟨rfl, rfl⟩

lemma loopBody_frame (s : ClientState) :
    (loopBody s).1.registration_pending = s.registration_pending ∧
    (loopBody s).1.registration_start_time = s.registration_start_time := by
  unfold loopBody
  split_ifs with h1 h2 h3 <;>
    first
      | (rw [sysinfo_fst]; exact ⟨rfl, rfl⟩)
      | exact loopBody2_frame _
      | exact ⟨rfl, rfl⟩

/-- C6: if registration is pending with a recorded start time and the
registration timeout has elapsed by the time of a `run`-loop iteration,
that iteration deterministically sets the auth-failure flag, clears the
pending flag, clears the connected flag and leaves the transport closed
— with no transport event required. -/
theorem registration_timeout_tick (s : ClientState) (now t : Nat)
    (h1 : s.registration_pending = true) (h2 : s.registration_start_time = some t)
    (h3 : REGISTRATION_TIMEOUT < now - t) :
    (tick now s).1.registration_failed = true ∧
    (tick now s).1.registration_pending = false ∧
    (tick now s).1.connected = false ∧
    wsOpen (tick now s).1 = false := by
  obtain ⟨hp, hs⟩ := loopBody_frame s
  rw [h1] at hp
  rw [h2] at hs
  have htick : (tick now s).1 = (timeoutCheck now (loopBody s).1).1 := rfl
  rw [htick]
  unfold timeoutCheck
  rw [hs]
  dsimp only
  rw [if_pos ⟨by rw [hp], h3⟩]
  cases hw : (loopBody s).1.ws <;>
    exact ⟨rfl, rfl, rfl, by simp [wsOpen, closeWs]⟩

/-- A concrete client state awaiting a registration response whose timer
started at time 0. -/
def sampleAwaiting : ClientState :=
  { server_url := ("http://localhost:3000").data
    websocket_url := ("ws://localhost:3000").data
    device_id := ("12345").data
    connection_code := some ("code").data
    connection_code_callback := none
    ws := some true
    connected := false
    connecting := false
    shutdown_requested := false
    registration_failed := false
    registration_pending := true
    registration_start_time := some 0 }

theorem registration_timeout_tick_witness :
    sampleAwaiting.registration_pending = true ∧
    sampleAwaiting.registration_start_time = some 0 ∧
    REGISTRATION_TIMEOUT < 10 - 0 ∧
    ((tick 10 sampleAwaiting).1.registration_failed = true ∧
     (tick 10 sampleAwaiting).1.registration_pending = false ∧
     (tick 10 sampleAwaiting).1.connected = false ∧
     wsOpen (tick 10 sampleAwaiting).1 = false) :=
  ⟨rfl, rfl, by decide, registration_timeout_tick sampleAwaiting 10 0 rfl rfl (by decide)⟩

/-- C7: the transport error and close handlers set the connected and
connecting flags to false and leave every other field of the client
state unchanged — in particular the auth-failure flag is not touched by
a transport fault. -/
theorem transport_fault_handlers_frame (s : ClientState) :
    (_on_error s).connected = false ∧ (_on_error s).connecting = false ∧
    (_on_error s).registration_failed = s.registration_failed ∧
    (_on_error s).registration_pending = s.registration_pending ∧
    (_on_error s).registration_start_time = s.registration_start_time ∧
    (_on_error s).ws = s.ws ∧
    (_on_error s).shutdown_requested = s.shutdown_requested ∧
    (_on_error s).connection_code = s.connection_code ∧
    (_on_error s).connection_code_callback = s.connection_code_callback ∧
    (_on_error s).device_id = s.device_id ∧
    (_on_error s).server_url = s.server_url ∧
    (_on_error s).websocket_url = s.websocket_url ∧
    (_on_close s).connected = false ∧ (_on_close s).connecting = false ∧
    (_on_close s).registration_failed = s.registration_failed ∧
    (_on_close s).registration_pending = s.registration_pending ∧
    (_on_close s).registration_start_time = s.registration_start_time ∧
    (_on_close s).ws = s.ws ∧
    (_on_close s).shutdown_requested = s.shutdown_requested ∧
    (_on_close s).connection_code = s.connection_code ∧
    (_on_close s).connection_code_callback = s.connection_code_callback ∧
    (_on_close s).device_id = s.device_id ∧
    (_on_close s).server_url = s.server_url ∧
    (_on_close s).websocket_url = s.websocket_url := by
  unfold _on_error _on_close
  refine ⟨rfl, rfl, rfl, rfl, rfl, rfl, rfl, rfl, rfl, rfl, rfl, rfl,
    rfl, rfl, rfl, rfl, rfl, rfl, rfl, rfl, rfl, rfl, rfl, rfl⟩

/-- C8 (counterexample): the claim that every outbound message attempt
while not Registered is rejected fails for the `register` message:
`_register_device` is guarded only by handle presence, and in a state
with a live handle but `connected = false` it does send the register
message. -/
theorem register_sent_while_unregistered :
    sampleAwaiting.connected = false ∧
    (_register_device 3 sampleAwaiting).2 =
      [Event.sentRegister sampleAwaiting.device_id sampleAwaiting.connection_code] :=
  ⟨rfl, rfl⟩

/-- C8 (amended): the `command_result` and `system_information` senders
are guarded by the Registered state: whenever the client is not
connected, both attempts are rejected locally (logged only) with nothing
sent and the state unchanged.  The `register` sender is guarded only by
presence of the transport handle — it is necessarily sent before the
client is Registered. -/
theorem guarded_sends_require_registered (s : ClientState) (commandId : PyStr)
    (index : Nat) (command output : PyStr) (success : Bool)
    (h : s.connected = false) :
    _send_command_results s commandId index command output success = (s, []) ∧
    _send_system_information s = (s, []) := by
  unfold _send_command_results _send_system_information
  rw [if_pos (Or.inr (by simp [h])), if_pos (Or.inr (by simp [h]))]
  exact ⟨rfl, rfl⟩

theorem guarded_sends_require_registered_witness :
    sampleAwaiting.connected = false ∧
    (_send_command_results sampleAwaiting ("b1").data 0 ("echo hi").data ("hi").data true =
        (sampleAwaiting, []) ∧
      _send_system_information sampleAwaiting = (sampleAwaiting, [])) :=
  ⟨rfl, guarded_sends_require_registered sampleAwaiting ("b1").data 0 ("echo hi").data
    ("hi").data true rfl⟩

lemma loopBody2_halt (sa : ClientState) (h : sa.registration_failed = true) :
    loopBody2 sa = (sa, []) := by
  unfold loopBody2
  rw [if_neg (by simp [h])]

lemma loopBody_halt (s : ClientState) (h1 : s.registration_failed = true)
    (h2 : s.connection_code_callback = none) (h3 : s.connected = false) :
    loopBody s = (s, []) := by
  unfold loopBody
  rw [if_neg (by simp [h3])]
  by_cases hc : s.connecting
  · rw [if_neg (by simp [hc])]
  · rw [if_pos (by simp [hc])]
    rw [if_neg (by simp [h2])]
    exact loopBody2_halt s h1

lemma timeoutCheck_halt (now : Nat) (s : ClientState) (h1 : s.registration_failed = true)
    (h2 : s.connection_code_callback = none) (h3 : s.connected = false) :
    (timeoutCheck now s).1.registration_failed = true ∧
    (timeoutCheck now s).1.connection_code_callback = none ∧
    (timeoutCheck now s).1.connected = false ∧
    Event.connectAttempt ∉ (timeoutCheck now s).2 := by
  unfold timeoutCheck
  cases hst : s.registration_start_time with
  | none => exact ⟨h1, h2, h3, by simp⟩
  | some t =>
    dsimp only
    split_ifs <;>
      first
        | exact ⟨rfl, h2, rfl, by simp⟩
        | exact ⟨h1, h2, h3, by simp⟩

lemma tick_halt_invariant (now : Nat) (s : ClientState) (h1 : s.registration_failed = true)
    (h2 : s.connection_code_callback = none) (h3 : s.connected = false) :
    (tick now s).1.registration_failed = true ∧
    (tick now s).1.connection_code_callback = none ∧
    (tick now s).1.connected = false ∧
    Event.connectAttempt ∉ (tick now s).2 := by
  have hlb := loopBody_halt s h1 h2 h3
  have htick1 : (tick now s).1 = (timeoutCheck now (loopBody s).1).1 := rfl
  have htick2 : (tick now s).2 = (loopBody s).2 ++ (timeoutCheck now (loopBody s).1).2 := rfl
  rw [hlb] at htick1 htick2
  obtain ⟨ha, hb, hc, hd⟩ := timeoutCheck_halt now s h1 h2 h3
  refine ⟨by rw [htick1]; exact ha, by rw [htick1]; exact hb, by rw [htick1]; exact hc, ?_⟩
  rw [htick2]
  simp only [List.nil_append]
  exact hd

/-- C9: once the auth-failure flag is set in a client constructed
without a connection-code callback, no later `run`-loop iteration ever
attempts `connect()` again: over any sequence of iterations the flag
stays set, the client stays disconnected, and no connect attempt is
emitted. -/
theorem auth_failure_without_callback_halts (s : ClientState)
    (h1 : s.registration_failed = true) (h2 : s.connection_code_callback = none)
    (h3 : s.connected = false) :
    ∀ nows : List Nat,
      (ticks nows s).1.registration_failed = true ∧
      (ticks nows s).1.connected = false ∧
      Event.connectAttempt ∉ (ticks nows s).2 := by
  intro nows
  induction nows generalizing s with
  | nil => exact ⟨h1, h3, by simp [ticks]⟩
  | cons n ns ih =>
    obtain ⟨ha, hb, hc, hd⟩ := tick_halt_invariant n s h1 h2 h3
    have hrec := ih (tick n s).1 ha hb hc
    have hrw1 : (ticks (n :: ns) s).1 = (ticks ns (tick n s).1).1 := rfl
    have hrw2 : (ticks (n :: ns) s).2 = (tick n s).2 ++ (ticks ns (tick n s).1).2 := rfl
    refine ⟨by rw [hrw1]; exact hrec.1, by rw [hrw1]; exact hrec.2.1, ?_⟩
    rw [hrw2]
    simp only [List.mem_append]
    rintro (h | h)
    · exact hd h
    · exact hrec.2.2 h

/-- A concrete client state after a registration failure, with no
connection-code callback available. -/
def sampleAuthFailed : ClientState :=
  { server_url := ("http://localhost:3000").data
    websocket_url := ("ws://localhost:3000").data
    device_id := ("12345").data
    connection_code := some ("code").data
    connection_code_callback := none
    ws := some false
    connected := false
    connecting := false
    shutdown_requested := false
    registration_failed := true
    registration_pending := false
    registration_start_time := none }

theorem auth_failure_without_callback_halts_witness :
    sampleAuthFailed.registration_failed = true ∧
    sampleAuthFailed.connection_code_callback = none ∧
    sampleAuthFailed.connected = false ∧
    ((ticks [1, 2, 3] sampleAuthFailed).1.registration_failed = true ∧
     (ticks [1, 2, 3] sampleAuthFailed).1.connected = false ∧
     Event.connectAttempt ∉ (ticks [1, 2, 3] sampleAuthFailed).2) :=
  ⟨rfl, rfl, rfl, auth_failure_without_callback_halts sampleAuthFailed rfl rfl rfl [1, 2, 3]⟩

/-- C10: a `registered` response always clears the pending flag and the
timer start; the client becomes connected exactly when the `success`
field is present and truthy, and the auth-failure flag is set exactly
when it is absent or falsy — an absent or falsy field is treated exactly
like an explicit failure. -/
theorem registration_response_truthiness (success : Option Bool) (s : ClientState) :
    (_handle_registration_response success s).registration_pending = false ∧
    (_handle_registration_response success s).registration_start_time = none ∧
    (_handle_registration_response success s).connected = pyTruthy success ∧
    (_handle_registration_response success s).registration_failed = !pyTruthy success := by
  unfold _handle_registration_response
  by_cases h : pyTruthy success <;> simp [h]
